import Mathlib

/-!
Shallow embedding of `src/scripts/terrain_module.py` (terrain profile module).

Conventions:
* Python `float` arithmetic on the magnitudes in scope is modelled by exact
  rational arithmetic (`ℚ`); `int(...)` is truncation toward zero.
* Python `range(0, stop, step)` over naturals is modelled by `pyRange`.
* External collaborators (shapely geometry, pyproj reprojection, rasterio
  decoding) are oracle parameters; numpy 2-D integer indexing is modelled by
  its documented semantics (negative wraparound, IndexError otherwise), and
  `functools.lru_cache` by its documented least-recently-used semantics.
-/

namespace TerrainModule

/-- Python `range(0, stop, step)` for `step > 0`: the multiples of `step`
that are `≥ 0` and strictly less than `stop`, in increasing order. -/
def pyRange (stop step : ℕ) : List ℕ :=
  (List.range ((stop + step - 1) / step)).map (fun i => i * step)

/-- Python `int(q)`: truncation toward zero. -/
def pyInt (q : ℚ) : ℤ :=
  if 0 ≤ q then ⌊q⌋ else ⌈q⌉

/-- Embedding of `determine_length_increment` (terrain_module.py lines 118-127):
`if length >= 60000: increment = length / 600 else: increment = max(length / 100, 1)`,
then `return int(increment)`.  Python `/` is real division, modelled exactly on `ℚ`. -/
def determine_length_increment (length : ℕ) : ℤ :=
  if 60000 ≤ length then pyInt ((length : ℚ) / 600)
  else pyInt (max ((length : ℚ) / 100) 1)

/-- A tile's bounding box, `tuple(dataset.bounds) = (left, bottom, right, top)`. -/
structure Extent where
  left : ℚ
  bottom : ℚ
  right : ℚ
  top : ℚ
deriving DecidableEq

/-- The error outcomes of the module: `noTile` models the
`ValueError("No tile includes x .. y ..")` raised by `get_tile_path_for_point`,
and `indexError` models the raw `IndexError` raised by numpy indexing. -/
inductive TerrainErr where
  | noTile (x y : ℚ)
  | indexError
deriving DecidableEq

/-- A decoded raster band: grid dimensions plus the cell values. -/
structure DemBand where
  rows : ℕ
  cols : ℕ
  val : ℕ → ℕ → ℤ

/-- A 2-D affine map `(x, y) ↦ (a*x + b*y + c, d*x + e*y + f)`, the shape of
`rasterio`'s affine transforms.  `load_dataset` stores the INVERSE of the
dataset transform, so the `Affine` handed to the sampler maps geographic
coordinates to fractional (col, row) pixel space. -/
structure Affine where
  a : ℚ
  b : ℚ
  c : ℚ
  d : ℚ
  e : ℚ
  f : ℚ

def Affine.apply (t : Affine) (x y : ℚ) : ℚ × ℚ :=
  (t.a * x + t.b * y + t.c, t.d * x + t.e * y + t.f)

/-- Embedding of `transform_xy_to_rowcol` (lines 97-105): `eps = 0.0`;
`col, row = transform * (x + eps, y - eps)`; `return math.floor(row), math.floor(col)`. -/
def transform_xy_to_rowcol (t : Affine) (x y : ℚ) : ℤ × ℤ :=
  let eps : ℚ := 0
  let cr := t.apply (x + eps) (y - eps)
  (⌊cr.2⌋, ⌊cr.1⌋)

/-- numpy single-axis integer indexing into an axis of size `n`: an index in
`[0, n)` is used as is, an index in `[-n, 0)` wraps to the opposite edge, and
anything else is an IndexError (`none`). -/
def numpyIdx (n : ℕ) (i : ℤ) : Option ℕ :=
  if 0 ≤ i ∧ i < (n : ℤ) then some i.toNat
  else if -(n : ℤ) ≤ i ∧ i < 0 then some (i + n).toNat
  else none

/-- numpy 2-D integer indexing `band[row, col]`. -/
def numpy_index (b : DemBand) (row col : ℤ) : Except TerrainErr ℤ :=
  match numpyIdx b.rows row, numpyIdx b.cols col with
  | some r, some c => .ok (b.val r c)
  | _, _ => .error .indexError

/-- Embedding of `get_value_from_dem_tile` (lines 89-94), with the tile already loaded:
`row, col = transform_xy_to_rowcol(transform, x, y); return band[row, col]`.
`bt` is the `(band, inverse transform)` pair returned by `load_dataset`. -/
def get_value_from_dem_tile (bt : DemBand × Affine) (x y : ℚ) : Except TerrainErr ℤ :=
  let rc := transform_xy_to_rowcol bt.2 x y
  numpy_index bt.1 rc.1 rc.2

/-- Embedding of `get_tile_path_for_point` (lines 82-86): scan the extent dictionary in
iteration order; return the first path whose extent satisfies
`x >= left and x <= right and y <= top and y >= bottom`; otherwise raise
`ValueError` (modelled as `.noTile x y`). -/
def get_tile_path_for_point (extents : List (Extent × String)) (x y : ℚ) :
    Except TerrainErr String :=
  match extents with
  | [] => .error (.noTile x y)
  | (e, path) :: rest =>
      if e.left ≤ x ∧ x ≤ e.right ∧ y ≤ e.top ∧ e.bottom ≤ y then .ok path
      else get_tile_path_for_point rest x y

/-- Python dict insertion `d[k] = v`: overwrite in place if the key is
present, else append (dicts preserve insertion order). -/
def dict_insert (d : List (Extent × String)) (k : Extent) (v : String) :
    List (Extent × String) :=
  if d.any (fun p => p.1 == k) then d.map (fun p => if p.1 == k then (k, v) else p)
  else d ++ [(k, v)]

/-- Embedding of `load_extents` (lines 71-79): for each tile found by the glob (given here
as the list of `(path, bounds)` pairs the rasterio collaborator decodes),
record `extents[tuple(dataset.bounds)] = tile_path`.  There is no failure
path: an empty directory yields an empty dictionary. -/
def load_extents (tiles : List (String × Extent)) : List (Extent × String) :=
  tiles.foldl (fun acc t => dict_insert acc t.2 t.1) []

/-- Oracle for the shapely geometry operations used by the module:
`LineString.length` and `LineString.interpolate`. -/
structure GeomOps where
  glength : List (ℚ × ℚ) → ℚ
  interpolate : List (ℚ × ℚ) → ℚ → ℚ × ℚ

/-- Oracle for pyproj point reprojection, keyed by the source and target CRS
identifier strings handed to `pyproj.Proj(init=...)`. -/
structure Reproj where
  tr : String → String → ℚ × ℚ → ℚ × ℚ

/-- The CRS pair used by the forward projection `ll_to_osgb` that
`terrain_module` builds at lines 38-43: `partial(pyproj.transform,
Proj(init='epsg:4326'), Proj(init='epsg:27700'))`.  The function's
`old_crs`/`new_crs` arguments are never consulted. -/
def ll_to_osgb_crs (old_crs new_crs : String) : String × String :=
  ("epsg:4326", "epsg:27700")

/-- The CRS pair used by the backward projection `osgb_to_ll` built at lines
52-55; again independent of the `old_crs`/`new_crs` arguments. -/
def osgb_to_ll_crs (old_crs new_crs : String) : String × String :=
  ("epsg:27700", "epsg:4326")

/-- Embedding of `terrain_module` (lines 31-66): load the extents, reproject the line with
the hard-coded epsg:4326 → epsg:27700 projection, take
`length = int(line_geometry.length)` and the increment from
`determine_length_increment`, then for each `currentdistance` in
`range(0, length, increment)` interpolate the point, reproject it back with
the hard-coded epsg:27700 → epsg:4326 projection, locate its tile and read
its elevation.  The `old_crs` and `new_crs` parameters are unused, exactly
as in the source. -/
def terrain_module (G : GeomOps) (R : Reproj) (load : String → DemBand × Affine)
    (tiles : List (String × Extent)) (line : List (ℚ × ℚ))
    (old_crs new_crs : String) : Except TerrainErr (List ℤ) :=
  let extents := load_extents tiles
  let ll_to_osgb := R.tr (ll_to_osgb_crs old_crs new_crs).1 (ll_to_osgb_crs old_crs new_crs).2
  let line_geometry := line.map ll_to_osgb
  let length := (pyInt (G.glength line_geometry)).toNat
  let increment := (determine_length_increment length).toNat
  let osgb_to_ll := R.tr (osgb_to_ll_crs old_crs new_crs).1 (osgb_to_ll_crs old_crs new_crs).2
  (pyRange length increment).mapM (fun (currentdistance : ℕ) =>
    let point := G.interpolate line_geometry (currentdistance : ℚ)
    let p := osgb_to_ll point
    (get_tile_path_for_point extents p.1 p.2).bind (fun tile_path =>
      get_value_from_dem_tile (load tile_path) p.1 p.2))

/-- The arc-length distances at which the pipeline samples a path whose
projected integer length is `length` (loop bound of lines 57-58). -/
def profile_sample_positions (length : ℕ) : List ℕ :=
  pyRange length (determine_length_increment length).toNat

/-- One step of `functools.lru_cache(maxsize=cap)` keyed by `k`: on a hit the
stored value is returned (no decode) and the entry moves to the front of the
recency list; on a miss `decode` runs once, the new entry is pushed to the
front and the least-recently-used entries beyond `cap` are evicted.  Returns
`(value, new state, number of decode calls)`. -/
def lru_get {K V : Type} [DecidableEq K] (decode : K → V) (cap : ℕ)
    (st : List (K × V)) (k : K) : V × List (K × V) × ℕ :=
  match st.lookup k with
  | some v => (v, (k, v) :: st.filter (fun p => !(p.1 == k)), 0)
  | none => ((decode k), ((k, decode k) :: st).take cap, 1)

/-- The cache state after a sequence of lookups starting from the empty
cache. -/
def lru_run {K V : Type} [DecidableEq K] (decode : K → V) (cap : ℕ)
    (ks : List K) : List (K × V) :=
  ks.foldl (fun st k => (lru_get decode cap st k).2.1) []

/-- A small 3×3 demonstration band with `val r c = 3*r + c`. -/
def demo_band : DemBand := ⟨3, 3, fun r c => (3 * r + c : ℤ)⟩

/-- The identity affine transform. -/
def id_affine : Affine := ⟨1, 0, 0, 0, 1, 0⟩

/-- The projected line geometry built by `terrain_module` (lines 36-45):
the input coordinates mapped through the hard-coded epsg:4326 → epsg:27700
projection. -/
def pipeline_line_geometry (R : Reproj) (line : List (ℚ × ℚ)) : List (ℚ × ℚ) :=
  line.map (R.tr "epsg:4326" "epsg:27700")

/-- The integer path length `length = int(line_geometry.length)` (line 46). -/
def pipeline_length (G : GeomOps) (R : Reproj) (line : List (ℚ × ℚ)) : ℕ :=
  (pyInt (G.glength (pipeline_line_geometry R line))).toNat

/-- The arc-length distances walked by the sampling loop of lines 57-58,
`range(0, length, increment)`. -/
def pipeline_positions (G : GeomOps) (R : Reproj) (line : List (ℚ × ℚ)) : List ℕ :=
  pyRange (pipeline_length G R line)
    (determine_length_increment (pipeline_length G R line)).toNat

/-- The geographic position of the sample at arc-length distance `d`
(lines 58-60): interpolate on the projected line, then reproject back with
the hard-coded epsg:27700 → epsg:4326 projection. -/
def pipeline_sample_point (G : GeomOps) (R : Reproj) (line : List (ℚ × ℚ)) (d : ℚ) : ℚ × ℚ :=
  R.tr "epsg:27700" "epsg:4326" (G.interpolate (pipeline_line_geometry R line) d)

/-- Degenerate geometry oracle: every line has length 0 and interpolates to
the origin. -/
def zero_geom : GeomOps := ⟨fun _ => 0, fun _ _ => (0, 0)⟩

/-- Reprojection oracle that leaves points unchanged. -/
def id_reproj : Reproj := ⟨fun _ _ p => p⟩

/-- Tile loader that decodes every path to the demonstration band with the
identity inverse transform. -/
def demo_load : String → DemBand × Affine := fun _ => (demo_band, id_affine)

/-- The two-tile extent index of the end-to-end scenario:
extents (0,0,10,10) and (10,0,20,10). -/
def demo_extents : List (Extent × String) :=
  [(⟨0, 0, 10, 10⟩, "tile1"), (⟨10, 0, 20, 10⟩, "tile2")]

/- ------------------------------------------------------------------ -/
/- Helper lemmas shared by the claim theorems.                         -/
/- ------------------------------------------------------------------ -/

/-- With exact division, `determine_length_increment` computes the natural
division formula. -/
theorem dli_eq (l : ℕ) :
    determine_length_increment l = ((if 60000 ≤ l then l / 600 else max (l / 100) 1 : ℕ) : ℤ) := by
  unfold determine_length_increment pyInt
  by_cases h : 60000 ≤ l
  · rw [if_pos h, if_pos h, if_pos (by positivity)]
    rw [← Int.natCast_floor_eq_floor (by positivity)]
    rw [Nat.floor_div_ofNat, Nat.floor_natCast]
  · rw [if_neg h, if_neg h]
    by_cases h2 : 100 ≤ l
    · have hq : (1 : ℚ) ≤ (l : ℚ) / 100 := by
        rw [le_div_iff₀ (by norm_num)]
        exact_mod_cast by linarith
      rw [max_eq_left hq, if_pos (by positivity)]
      rw [← Int.natCast_floor_eq_floor (by positivity)]
      rw [Nat.floor_div_ofNat, Nat.floor_natCast]
      congr 1
      omega
    · have hq : (l : ℚ) / 100 ≤ 1 := by
        rw [div_le_one (by norm_num)]
        exact_mod_cast by linarith
      rw [max_eq_right hq, if_pos (by norm_num)]
      have h0 : l / 100 = 0 := by omega
      simp [h0]

/-- The number of positions Python's `range(0, stop, step)` produces. -/
theorem pyRange_length (stop step : ℕ) :
    (pyRange stop step).length = (stop + step - 1) / step := by
  simp [pyRange]

/-- `terrain_module` factored through the pipeline helper definitions. -/
theorem terrain_module_eq (G : GeomOps) (R : Reproj) (load : String → DemBand × Affine)
    (tiles : List (String × Extent)) (line : List (ℚ × ℚ)) (old_crs new_crs : String) :
    terrain_module G R load tiles line old_crs new_crs =
      (pipeline_positions G R line).mapM (fun (d : ℕ) =>
        (get_tile_path_for_point (load_extents tiles)
            (pipeline_sample_point G R line (d : ℚ)).1
            (pipeline_sample_point G R line (d : ℚ)).2).bind (fun tile_path =>
          get_value_from_dem_tile (load tile_path)
            (pipeline_sample_point G R line (d : ℚ)).1
            (pipeline_sample_point G R line (d : ℚ)).2)) := rfl

/-- A positive in-range index passes numpy indexing unchanged. -/
theorem numpyIdx_of_nonneg (n : ℕ) (i : ℤ) (h1 : 0 ≤ i) (h2 : i < (n : ℤ)) :
    numpyIdx n i = some i.toNat := by
  unfold numpyIdx
  rw [if_pos ⟨h1, h2⟩]

/-- A negative in-range index wraps to the opposite edge in numpy indexing. -/
theorem numpyIdx_of_neg (n : ℕ) (i : ℤ) (h1 : -(n : ℤ) ≤ i) (h2 : i < 0) :
    numpyIdx n i = some (i + n).toNat := by
  unfold numpyIdx
  rw [if_neg (by omega), if_pos ⟨h1, h2⟩]

/-- An index beyond either end of the valid range is an IndexError. -/
theorem numpyIdx_eq_none (n : ℕ) (i : ℤ) (h : (n : ℤ) ≤ i ∨ i < -(n : ℤ)) :
    numpyIdx n i = none := by
  unfold numpyIdx
  rw [if_neg (by omega), if_neg (by omega)]

/-- If either axis index is out of numpy's range, the 2-D read raises. -/
theorem numpy_index_eq_error (b : DemBand) (row col : ℤ)
    (h : numpyIdx b.rows row = none ∨ numpyIdx b.cols col = none) :
    numpy_index b row col = .error .indexError := by
  unfold numpy_index
  rcases h with h | h
  · rw [h]
  · rw [h]
    cases numpyIdx b.rows row <;> rfl

/-- Removing the entry found by a successful lookup shortens the list. -/
theorem lookup_filter_length {K V : Type} [DecidableEq K] (st : List (K × V)) (k : K) (v : V)
    (h : st.lookup k = some v) :
    (st.filter (fun p => !(p.1 == k))).length + 1 ≤ st.length := by
  induction st with
  | nil => simp [List.lookup] at h
  | cons a l ih =>
    obtain ⟨k1, v1⟩ := a
    by_cases hk : k = k1
    · subst hk
      rw [List.filter_cons_of_neg (by simp), List.length_cons]
      exact Nat.succ_le_succ (List.length_filter_le _ l)
    · have hk1 : (k == k1) = false := beq_eq_false_iff_ne.mpr hk
      simp only [List.lookup, hk1] at h
      rw [List.filter_cons_of_pos (by simp [Ne.symm hk]), List.length_cons]
      exact Nat.succ_le_succ (ih h)

/-- One cache step preserves the capacity bound. -/
theorem lru_get_length_le {K V : Type} [DecidableEq K] (decode : K → V) (cap : ℕ)
    (st : List (K × V)) (k : K) (h : st.length ≤ cap) :
    ((lru_get decode cap st k).2.1).length ≤ cap := by
  unfold lru_get
  cases hl : st.lookup k with
  | some v =>
      simp only [List.length_cons]
      exact le_trans (lookup_filter_length st k v hl) h
  | none =>
      simp only [List.length_take]
      exact min_le_left _ _

/-- Any fold of cache steps preserves the capacity bound. -/
theorem lru_foldl_length_le {K V : Type} [DecidableEq K] (decode : K → V) (cap : ℕ)
    (ks : List K) (st : List (K × V)) (h : st.length ≤ cap) :
    (ks.foldl (fun st k => (lru_get decode cap st k).2.1) st).length ≤ cap := by
  induction ks generalizing st with
  | nil => exact h
  | cons k ks ih => exact ih _ (lru_get_length_le decode cap st k h)

/- ------------------------------------------------------------------ -/
/- Claim theorems.                                                     -/
/- ------------------------------------------------------------------ -/

/-- Claim C5, confirmed: for every non-negative integer length,
`determine_length_increment` equals `max(floor(length/100), 1)` below 60000
and `floor(length/600)` from 60000 on; in particular it is 1 at length 0,
with no division fault. -/
theorem c5_compute_increment_formula :
    (∀ length : ℕ, determine_length_increment length =
      if length < 60000 then ((max (length / 100) 1 : ℕ) : ℤ) else ((length / 600 : ℕ) : ℤ)) ∧
    determine_length_increment 0 = 1 := by
  constructor
  · intro l
    rw [dli_eq]
    by_cases h : 60000 ≤ l
    · rw [if_pos h, if_neg (by omega)]
    · rw [if_neg h, if_pos (by omega)]
  · rw [dli_eq]
    decide

/-- Claim C1, refuted by the code (code bug): at projected integer length
60001 the sampling loop `range(0, length, increment)` visits 601 positions,
exceeding the 600-sample ceiling that `determine_length_increment`'s own
docstring promises never to pass. -/
theorem c1_sample_count_exceeds_600 :
    (profile_sample_positions 60001).length = 601 ∧
    ¬ ((profile_sample_positions 60001).length ≤ 600) := by
  have h : (profile_sample_positions 60001).length = 601 := by
    rw [profile_sample_positions, pyRange_length, dli_eq]
    decide
  exact ⟨h, by omega⟩

/-- Claim C4, counterexample: over a path of integer length 5 with increment
2 the walk produces 3 positions, not floor(5/2) = 2 as the claim states. -/
theorem c4_counterexample_position_count :
    ¬ ((pyRange 5 2).length = 5 / 2) := by decide

/-- Claim C4, amended: for every length and every increment `k > 0` the walk
produces ceil(length/k) positions (not floor(length/k)); position `i` lies at
arc-length distance `i * k`, and every sampled distance is strictly less than
the length. -/
theorem c4_walk_characterization :
    ∀ L k : ℕ, 0 < k →
      (pyRange L k).length = (L + k - 1) / k ∧
      (∀ i : ℕ, ∀ h : i < (pyRange L k).length, (pyRange L k).get ⟨i, h⟩ = i * k) ∧
      (∀ d ∈ pyRange L k, d < L) := by
  intro L k hk
  refine ⟨pyRange_length L k, ?_, ?_⟩
  · intro i h
    simp [pyRange]
  · intro d hd
    simp only [pyRange, List.mem_map, List.mem_range] at hd
    obtain ⟨i, hi, rfl⟩ := hd
    have h2 : (i + 1) * k ≤ L + k - 1 := (Nat.le_div_iff_mul_le hk).1 hi
    have h3 : i * k + k ≤ L + k - 1 := by rw [add_mul, one_mul] at h2; omega
    omega

/-- Witness for the amended claim C4 at length 7, increment 3. -/
theorem c4_walk_characterization_witness :
    (pyRange 7 3).length = (7 + 3 - 1) / 3 :=
  (c4_walk_characterization 7 3 (by decide)).1

/-- Claim C2, counterexample: called with CRS arguments epsg:32633 and
epsg:3857, the projections built by `terrain_module` still use the
hard-coded epsg:4326/epsg:27700 pair, not the caller-supplied one. -/
theorem c2_counterexample_crs_pair :
    ¬ (ll_to_osgb_crs "epsg:32633" "epsg:3857" = ("epsg:32633", "epsg:3857") ∧
       osgb_to_ll_crs "epsg:32633" "epsg:3857" = ("epsg:3857", "epsg:32633")) := by
  decide

/-- Claim C2, amended: the reprojections are hard-coded to
epsg:4326 → epsg:27700 (forward) and epsg:27700 → epsg:4326 (backward); the
caller-supplied CRS arguments are ignored, and the pipeline's result does not
depend on them. -/
theorem c2_crs_arguments_have_no_effect :
    ∀ o n o2 n2 : String,
      ll_to_osgb_crs o n = ("epsg:4326", "epsg:27700") ∧
      osgb_to_ll_crs o n = ("epsg:27700", "epsg:4326") ∧
      ∀ (G : GeomOps) (R : Reproj) (load : String → DemBand × Affine)
        (tiles : List (String × Extent)) (line : List (ℚ × ℚ)),
        terrain_module G R load tiles line o n = terrain_module G R load tiles line o2 n2 :=
  fun _ _ _ _ => ⟨rfl, rfl, fun _ _ _ _ _ => rfl⟩

/-- Claim C9, confirmed: the cache of `load_dataset`
(`functools.lru_cache(maxsize=32)`) never holds more than 32 entries for any
call sequence; a lookup of a resident key returns the stored value with zero
decode calls; and a miss at full capacity evicts exactly the
least-recently-used entry (the tail of the recency list). -/
theorem c9_lru_cache_bound_hit_eviction :
    ∀ (K V : Type) [inst : DecidableEq K] (decode : K → V) (ks : List K),
      (lru_run decode 32 ks).length ≤ 32 ∧
      (∀ (st : List (K × V)) (k : K) (v : V), st.lookup k = some v →
        (lru_get decode 32 st k).1 = v ∧ (lru_get decode 32 st k).2.2 = 0) ∧
      (∀ (st : List (K × V)) (k : K), st.lookup k = none →
        (lru_get decode 32 st k).2.1 = ((k, decode k) :: st).take 32) := by
  intro K V inst decode ks
  refine ⟨lru_foldl_length_le decode 32 ks [] (by simp), ?_, ?_⟩
  · intro st k v h
    unfold lru_get
    rw [h]
    exact ⟨rfl, rfl⟩
  · intro st k h
    unfold lru_get
    rw [h]

/-- Witness for claim C9 on a concrete decode function, call sequence and
warm cache state. -/
theorem c9_lru_cache_witness :
    (lru_run (fun n : ℕ => n * 10) 32 [1, 2, 3]).length ≤ 32 ∧
    (lru_get (fun n : ℕ => n * 10) 32 [(1, 10), (2, 20)] 1).1 = 10 ∧
    (lru_get (fun n : ℕ => n * 10) 32 [(1, 10), (2, 20)] 1).2.2 = 0 ∧
    (lru_get (fun n : ℕ => n * 10) 32 [(1, 10), (2, 20)] 3).2.1 =
      ((3, 30) :: [(1, 10), (2, 20)]).take 32 := by
  have h := c9_lru_cache_bound_hit_eviction ℕ ℕ (fun n => n * 10) [1, 2, 3]
  have h2 := h.2.1 [(1, 10), (2, 20)] 1 10 (by decide)
  have h3 := h.2.2 [(1, 10), (2, 20)] 3 (by decide)
  exact ⟨h.1, h2.1, h2.2, h3⟩

/-- Claim C3, counterexample: with the identity inverse transform and a 3×3
band, the point (1/2, -1/2) floors to row -1 — outside the grid dimensions —
yet `get_value_from_dem_tile` silently returns the wrapped value 6 instead of
failing with any error. -/
theorem c3_counterexample_silent_value :
    transform_xy_to_rowcol id_affine (1/2) (-1/2) = (-1, 0) ∧
    get_value_from_dem_tile (demo_band, id_affine) (1/2) (-1/2) = .ok 6 := by
  constructor
  · simp [transform_xy_to_rowcol, Affine.apply, id_affine]
    norm_num
  · simp [get_value_from_dem_tile, transform_xy_to_rowcol, Affine.apply, id_affine,
      numpy_index, numpyIdx, demo_band]
    norm_num

/-- Claim C3, amended: the code defines no `PixelOutOfBoundsError`.  A floored
index at or beyond a grid dimension (or below the negative of it) surfaces as
numpy's raw IndexError, while a negative index of magnitude at most the
dimension silently wraps (see the C10 theorem). -/
theorem c3_out_of_range_raises_raw_index_error :
    ∀ (b : DemBand) (t : Affine) (x y : ℚ),
      ((b.rows : ℤ) ≤ (transform_xy_to_rowcol t x y).1 ∨
       (transform_xy_to_rowcol t x y).1 < -(b.rows : ℤ) ∨
       (b.cols : ℤ) ≤ (transform_xy_to_rowcol t x y).2 ∨
       (transform_xy_to_rowcol t x y).2 < -(b.cols : ℤ)) →
      get_value_from_dem_tile (b, t) x y = .error .indexError := by
  intro b t x y h
  show numpy_index b (transform_xy_to_rowcol t x y).1 (transform_xy_to_rowcol t x y).2 = _
  rcases h with h | h | h | h
  · exact numpy_index_eq_error _ _ _ (Or.inl (numpyIdx_eq_none _ _ (Or.inl h)))
  · exact numpy_index_eq_error _ _ _ (Or.inl (numpyIdx_eq_none _ _ (Or.inr h)))
  · exact numpy_index_eq_error _ _ _ (Or.inr (numpyIdx_eq_none _ _ (Or.inl h)))
  · exact numpy_index_eq_error _ _ _ (Or.inr (numpyIdx_eq_none _ _ (Or.inr h)))

/-- Witness for amended claim C3: the point (5, 1) floors to column 5 on a
3-column band and raises the raw IndexError. -/
theorem c3_raw_index_error_witness :
    get_value_from_dem_tile (demo_band, id_affine) 5 1 = .error .indexError := by
  apply c3_out_of_range_raises_raw_index_error demo_band id_affine 5 1
  have h : transform_xy_to_rowcol id_affine 5 1 = (1, 5) := by
    simp [transform_xy_to_rowcol, Affine.apply, id_affine]
  rw [h]
  right; right; left
  show (demo_band.cols : ℤ) ≤ 5
  norm_num [demo_band]

/-- Claim C8, confirmed: for a point whose floored indices are in bounds, the
sampler applies the inverse affine transform to (x, y), floors the fractional
(col, row) with no sub-pixel interpolation, and returns the grid value at
[row, col]. -/
theorem c8_in_bounds_floor_sampling :
    ∀ (b : DemBand) (t : Affine) (x y : ℚ),
      0 ≤ (transform_xy_to_rowcol t x y).1 → (transform_xy_to_rowcol t x y).1 < (b.rows : ℤ) →
      0 ≤ (transform_xy_to_rowcol t x y).2 → (transform_xy_to_rowcol t x y).2 < (b.cols : ℤ) →
      transform_xy_to_rowcol t x y = (⌊(t.apply x y).2⌋, ⌊(t.apply x y).1⌋) ∧
      get_value_from_dem_tile (b, t) x y =
        .ok (b.val (transform_xy_to_rowcol t x y).1.toNat
          (transform_xy_to_rowcol t x y).2.toNat) := by
  intro b t x y h1 h2 h3 h4
  constructor
  · unfold transform_xy_to_rowcol
    simp
  · show numpy_index b (transform_xy_to_rowcol t x y).1 (transform_xy_to_rowcol t x y).2 = _
    unfold numpy_index
    rw [numpyIdx_of_nonneg _ _ h1 h2, numpyIdx_of_nonneg _ _ h3 h4]

/-- Witness for claim C8: the in-bounds point (3/2, 1/2) floors to
(row, col) = (0, 1) and reads the grid value 1. -/
theorem c8_in_bounds_witness :
    get_value_from_dem_tile (demo_band, id_affine) (3/2) (1/2) = .ok 1 := by
  have hrc : transform_xy_to_rowcol id_affine (3/2) (1/2) = (0, 1) := by
    simp [transform_xy_to_rowcol, Affine.apply, id_affine]
    norm_num
  have h := c8_in_bounds_floor_sampling demo_band id_affine (3/2) (1/2)
    (by rw [hrc]; try decide) (by rw [hrc]; try decide) (by rw [hrc]; try decide)
    (by rw [hrc]; try decide)
  rw [h.2, hrc]
  rfl

/-- Claim C10, confirmed: a floored index that is negative with magnitude at
most the grid dimension (the other index also in numpy's valid range) makes
`get_value_from_dem_tile` return the value counted from the opposite edge of
the grid — numpy's negative-index wraparound — with no out-of-bounds error. -/
theorem c10_negative_index_wraparound :
    ∀ (b : DemBand) (t : Affine) (x y : ℚ),
      -(b.rows : ℤ) ≤ (transform_xy_to_rowcol t x y).1 →
      (transform_xy_to_rowcol t x y).1 < (b.rows : ℤ) →
      -(b.cols : ℤ) ≤ (transform_xy_to_rowcol t x y).2 →
      (transform_xy_to_rowcol t x y).2 < (b.cols : ℤ) →
      ((transform_xy_to_rowcol t x y).1 < 0 ∨ (transform_xy_to_rowcol t x y).2 < 0) →
      get_value_from_dem_tile (b, t) x y =
        .ok (b.val
          (if (transform_xy_to_rowcol t x y).1 < 0
            then (transform_xy_to_rowcol t x y).1 + b.rows
            else (transform_xy_to_rowcol t x y).1).toNat
          (if (transform_xy_to_rowcol t x y).2 < 0
            then (transform_xy_to_rowcol t x y).2 + b.cols
            else (transform_xy_to_rowcol t x y).2).toNat) := by
  intro b t x y h1 h2 h3 h4 hneg
  show numpy_index b (transform_xy_to_rowcol t x y).1 (transform_xy_to_rowcol t x y).2 = _
  unfold numpy_index
  by_cases hr : (transform_xy_to_rowcol t x y).1 < 0
  · rw [numpyIdx_of_neg _ _ h1 hr, if_pos hr]
    by_cases hc : (transform_xy_to_rowcol t x y).2 < 0
    · rw [numpyIdx_of_neg _ _ h3 hc, if_pos hc]
    · rw [numpyIdx_of_nonneg _ _ (by omega) h4, if_neg hc]
  · rw [numpyIdx_of_nonneg _ _ (by omega) h2, if_neg hr]
    by_cases hc : (transform_xy_to_rowcol t x y).2 < 0
    · rw [numpyIdx_of_neg _ _ h3 hc, if_pos hc]
    · rw [numpyIdx_of_nonneg _ _ (by omega) h4, if_neg hc]

/-- Witness for claim C10: the point (-1/2, 1/2) floors to column -1, which
wraps to column 2 of the 3×3 band and silently reads the value 2. -/
theorem c10_wraparound_witness :
    get_value_from_dem_tile (demo_band, id_affine) (-1/2) (1/2) = .ok 2 := by
  have hrc : transform_xy_to_rowcol id_affine (-1/2) (1/2) = (0, -1) := by
    simp [transform_xy_to_rowcol, Affine.apply, id_affine]
    norm_num
  have h := c10_negative_index_wraparound demo_band id_affine (-1/2) (1/2)
    (by rw [hrc]; try decide) (by rw [hrc]; try decide) (by rw [hrc]; try decide)
    (by rw [hrc]; try decide) (by rw [hrc]; right; try decide)
  rw [h, hrc]
  rfl

/-- Claim C6, counterexample: invoking the pipeline on an empty DEM directory
with a zero-length path raises no error at all — it returns an empty profile
— so no configuration/input error is surfaced before sampling. -/
theorem c6_counterexample_empty_dir_ok :
    terrain_module zero_geom id_reproj demo_load [] [(0, 0), (1, 1)] "EPSG:4326" "EPSG:27700" =
      .ok [] := by
  have hlen : pipeline_length zero_geom id_reproj [(0, 0), (1, 1)] = 0 := by
    unfold pipeline_length pipeline_line_geometry
    simp [zero_geom, pyInt]
  have hp : pipeline_positions zero_geom id_reproj [(0, 0), (1, 1)] = [] := by
    unfold pipeline_positions
    rw [hlen, dli_eq]
    decide
  rw [terrain_module_eq, hp]
  rfl

/-- Claim C6, amended: `load_extents` does not fail fast on an empty
directory — it returns an empty index — and the pipeline then either returns
an empty profile (no error at all, when the walk is empty) or fails with the
`NoTileForPoint` ValueError at the first sample lookup, inside the sampling
loop rather than before it. -/
theorem c6_empty_dir_no_failfast :
    ∀ (G : GeomOps) (R : Reproj) (load : String → DemBand × Affine)
      (line : List (ℚ × ℚ)) (o n : String),
      load_extents [] = [] ∧
      terrain_module G R load [] line o n =
        (match pipeline_positions G R line with
         | [] => .ok []
         | d :: _ =>
             .error (.noTile (pipeline_sample_point G R line (d : ℚ)).1
               (pipeline_sample_point G R line (d : ℚ)).2)) := by
  intro G R load line o n
  refine ⟨rfl, ?_⟩
  rw [terrain_module_eq]
  cases hp : pipeline_positions G R line with
  | nil => rfl
  | cons d l => rfl

/-- Claim C7, confirmed: a successful `get_tile_path_for_point` returns a
path recorded for an extent containing the point, and it raises the
`NoTileForPoint` ValueError exactly when no recorded extent contains the
point. -/
theorem c7_locate_contains_iff_error :
    ∀ (extents : List (Extent × String)) (x y : ℚ),
      (∀ path, get_tile_path_for_point extents x y = .ok path →
        ∃ e, (e, path) ∈ extents ∧ e.left ≤ x ∧ x ≤ e.right ∧ y ≤ e.top ∧ e.bottom ≤ y) ∧
      (get_tile_path_for_point extents x y = .error (.noTile x y) ↔
        ∀ e path, (e, path) ∈ extents →
          ¬ (e.left ≤ x ∧ x ≤ e.right ∧ y ≤ e.top ∧ e.bottom ≤ y)) := by
  intro extents x y
  induction extents with
  | nil =>
      refine ⟨?_, ?_⟩
      · intro path h
        simp [get_tile_path_for_point] at h
      · refine ⟨?_, ?_⟩
        · intro _ e path hmem
          simp at hmem
        · intro _
          rfl
  | cons hd tl ih =>
      obtain ⟨e0, path0⟩ := hd
      by_cases hc : e0.left ≤ x ∧ x ≤ e0.right ∧ y ≤ e0.top ∧ e0.bottom ≤ y
      · refine ⟨?_, ?_⟩
        · intro path h
          simp only [get_tile_path_for_point, if_pos hc, Except.ok.injEq] at h
          subst h
          exact ⟨e0, List.mem_cons_self _ _, hc⟩
        · refine ⟨?_, ?_⟩
          · intro h
            simp only [get_tile_path_for_point, if_pos hc] at h
            exact Except.noConfusion h
          · intro h
            exact absurd hc (h e0 path0 (List.mem_cons_self _ _))
      · refine ⟨?_, ?_⟩
        · intro path h
          simp only [get_tile_path_for_point, if_neg hc] at h
          obtain ⟨e1, hmem, hcont⟩ := ih.1 path h
          exact ⟨e1, List.mem_cons_of_mem _ hmem, hcont⟩
        · simp only [get_tile_path_for_point, if_neg hc]
          rw [ih.2]
          refine ⟨?_, ?_⟩
          · intro h e1 path1 hmem
            rcases List.mem_cons.mp hmem with heq | hmem2
            · injection heq with he hp
              subst he
              exact hc
            · exact h e1 path1 hmem2
          · intro h e1 path1 hmem
            exact h e1 path1 (List.mem_cons_of_mem _ hmem)

/-- Witness for claim C7 on the two-tile scenario: (25, 5) lies outside both
extents and raises the ValueError, while (5, 5) resolves to a recorded,
containing extent. -/
theorem c7_locate_witness :
    get_tile_path_for_point demo_extents 25 5 = .error (.noTile 25 5) ∧
    (∃ e, (e, "tile1") ∈ demo_extents ∧
      e.left ≤ 5 ∧ (5 : ℚ) ≤ e.right ∧ (5 : ℚ) ≤ e.top ∧ e.bottom ≤ 5) := by
  constructor
  · exact (c7_locate_contains_iff_error demo_extents 25 5).2.mpr (by
      intro e path hmem
      simp [demo_extents] at hmem
      rcases hmem with ⟨he, -⟩ | ⟨he, -⟩ <;> subst he <;> norm_num)
  · exact (c7_locate_contains_iff_error demo_extents 5 5).1 "tile1" (by
      simp [get_tile_path_for_point, demo_extents]
      norm_num)

end TerrainModule
